import Mathlib

/- Verification development for the fvtt-elevated-vision shadow pipeline.

   Embedded source:
   - src/unnamed/part_001: SourceShadowWallGeometry and its subclasses
     (constructWallGeometry, addWall, updateWall, removeWall, the splice
     helpers addToBuffer / overwriteBufferAt / removeFromBuffer, the
     inclusion predicates, and _wallCornerCoordinates);
   - src/scripts/glsl/ShadowWallShader.js: the point-source fragment stage
     (noShadow, lightEncoding, elevateShadowRatios, main).

   Modelling conventions: GPU buffers become lists, the wall-id to
   triangle-slot Map becomes an association list, and JS numbers become
   exact rationals plus an explicit NaN marker for the one coercion in the
   source that produces NaN.  Floating-point-only fragments of the source
   (the square-root based planar endpoint extension, the normalized
   directional axis) are abstracted as parameters; every formula that is
   exact in the source is translated exactly. -/

namespace EV

/-- A JS number stored in a geometry buffer: an ordinary numeric value
(modelled exactly as a rational) or NaN. -/
inductive JSNum where
  | nan : JSNum
  | num (x : ℚ) : JSNum
  deriving DecidableEq

/-- Number(b) for a JS boolean: false maps to 0 and true maps to 1.  This is
the coercion applied when the plain array of booleans pushed by
constructWallGeometry is turned into a Float32Array by
PIXI.Geometry.addAttribute. -/
def boolToNum (b : Bool) : JSNum := .num (if b then 1 else 0)

/-- ToNumber([b]) for a one-element JS array holding a boolean, as built by
addWall and updateWall (const ltd = [this.isLimited(wall)]; const data3 =
[ltd, ltd, ltd]): ToPrimitive on the array yields the string "true" or
"false", and ToNumber of either string is NaN.  TypedArray.prototype.set
applies this coercion elementwise when the data chunk is written. -/
def toNumberBoolArray (_b : Bool) : JSNum := .nan

/-- A wall snapshot: the fields of the host Wall object that the geometry
builder reads (src/unnamed/part_001).  senses models wall.document's
per-channel sense types, looked up by this.sourceType. -/
structure Wall where
  id : String
  aX : ℚ
  aY : ℚ
  bX : ℚ
  bY : ℚ
  topZ : ℚ
  bottomZ : ℚ
  isDoor : Bool
  isOpen : Bool
  senses : List (String × ℕ)
  deriving DecidableEq

/-- CONST.WALL_SENSE_TYPES.LIMITED (matches the shader define LIMITED_WALL
10.0). -/
def WALL_SENSE_LIMITED : ℕ := 10

/-- wall.document[sourceType]: the sense type of the wall for a channel.  An
absent channel reads as undefined, which compares unequal to LIMITED; it is
modelled as 0 (NONE). -/
def senseOf (w : Wall) (sourceType : String) : ℕ :=
  ((w.senses.find? (fun e => e.1 == sourceType)).map Prod.snd).getD 0

/-- SourceShadowWallGeometry.isLimited (part_001 lines 314-316). -/
def isLimited (sourceType : String) (w : Wall) : Bool :=
  senseOf w sourceType == WALL_SENSE_LIMITED

/-- SourceShadowWallGeometry._includeWall (part_001 lines 323-331): reject
open doors, then reject walls whose vertical span is empty after clamping the
top to the source elevation and the bottom to the minimum canvas
elevation. -/
def includeWall (sourceElevationZ minCanvasE : ℚ) (w : Wall) : Bool :=
  if w.isDoor && w.isOpen then false
  else
    let topZ := min w.topZ sourceElevationZ
    let bottomZ := max w.bottomZ minCanvasE
    if topZ ≤ bottomZ then false else true

/-- foundry.utils.orient2dFast: twice the signed area of the triangle a b c,
computed as (a.y - c.y) * (b.x - c.x) - (a.x - c.x) * (b.y - c.y). -/
def orient2dFast (ax ay bx bY cx cy : ℚ) : ℚ :=
  (ay - cy) * (bx - cx) - (ax - cx) * (bY - cy)

/-- Number#almostEqual(0) with foundry's default epsilon 1e-8. -/
def almostZero (x : ℚ) : Bool := |x| < 1 / 100000000

/-- DirectionalSourceShadowWallGeometry._includeWall (part_001 lines
601-608).  The normalized source direction (obtained in the source with a
floating-point square root) is abstracted as the parameters dirX, dirY.  The
override does not invoke the base-class predicate: it tests only that the
wall is not collinear with the directional axis. -/
def directionalIncludeWall (dirX dirY : ℚ) (w : Wall) : Bool :=
  let orientWall :=
    orient2dFast w.aX w.aY w.bX w.bY (w.aX + dirX) (w.aY + dirY)
  if almostZero orientWall then false else true

/-- SourceShadowWallGeometry.WALL_OFFSET_PIXELS. -/
def WALL_OFFSET_PIXELS : ℚ := 2

/-- Number.MAX_SAFE_INTEGER. -/
def MAX_SAFE_INTEGER : ℚ := 2 ^ 53 - 1

/-- Number.MIN_SAFE_INTEGER. -/
def MIN_SAFE_INTEGER : ℚ := -(2 ^ 53 - 1)

/-- Result of _wallCornerCoordinates: the two (adjusted) planar corners and
the padded vertical span. -/
structure WallCorners where
  c1x : ℚ
  c1y : ℚ
  c2x : ℚ
  c2y : ℚ
  topZ : ℚ
  bottomZ : ℚ
  deriving DecidableEq

/-- SourceShadowWallGeometry._wallCornerCoordinates (part_001 lines 339-362).
The planar endpoint extension (towardsPoint by segment length + offset,
followed by roundDecimals; floating-point geometry involving a square root)
is abstracted as the parameter planar.  The vertical components are the exact
source formulas: topZ = min(wall.topZ + WALL_OFFSET_PIXELS,
Number.MAX_SAFE_INTEGER) and bottomZ = max(wall.bottomZ -
WALL_OFFSET_PIXELS, Number.MIN_SAFE_INTEGER). -/
def wallCornerCoordinates (planar : Wall → ℚ × ℚ × ℚ × ℚ) (w : Wall) :
    WallCorners :=
  let p := planar w
  { c1x := p.1, c1y := p.2.1, c2x := p.2.2.1, c2y := p.2.2.2
    topZ := min (w.topZ + WALL_OFFSET_PIXELS) MAX_SAFE_INTEGER
    bottomZ := max (w.bottomZ - WALL_OFFSET_PIXELS) MIN_SAFE_INTEGER }

/-- SourceShadowWallGeometry.addToBuffer (part_001 lines 372-383): when the
buffer length is not a multiple of the data length the mismatch is reported
and the buffer is returned unchanged; otherwise a copy with the data chunk
appended is returned.  (In JS, length % 0 is NaN, so empty data also trips
the guard; the disjunct data.length = 0 models that.) -/
def addToBuffer {α : Type} (buffer data : List α) : List α :=
  if data.length = 0 ∨ buffer.length % data.length ≠ 0 then buffer
  else buffer ++ data

/-- SourceShadowWallGeometry.overwriteBufferAt (part_001 lines 393-402): on a
detected mismatch the buffer is returned unchanged, otherwise the element at
the given index is overwritten in place.  The JS guard does not catch the
exact boundary idxToOverwrite * data.length = buffer.length, where
TypedArray.set would throw a RangeError; that case is unreachable from the
modelled call sites (the slot is always below the tracked count) and is
modelled as returning the buffer unchanged. -/
def overwriteBufferAt {α : Type} (buffer data : List α)
    (idxToOverwrite : ℕ) : List α :=
  if data.length = 0 ∨ buffer.length % data.length ≠ 0
      ∨ idxToOverwrite * data.length > buffer.length then buffer
  else if idxToOverwrite * data.length + data.length ≤ buffer.length then
    buffer.take (idxToOverwrite * data.length) ++ data
      ++ buffer.drop (idxToOverwrite * data.length + data.length)
  else buffer

/-- SourceShadowWallGeometry.removeFromBuffer (part_001 lines 412-426): on a
detected mismatch the buffer is returned unchanged; an emptied buffer is
returned as such; otherwise the element's block is excised.  As for
overwriteBufferAt, the boundary idxToRemove * size = buffer.length passes the
JS guard and would throw inside TypedArray.set; it is unreachable from the
modelled call sites and is modelled by the same take/drop excision. -/
def removeFromBuffer {α : Type} (buffer : List α) (size idxToRemove : ℕ) :
    List α :=
  if size = 0 ∨ buffer.length % size ≠ 0
      ∨ idxToRemove * size > buffer.length then buffer
  else
    let newLn := buffer.length - size
    if newLn = 0 then []
    else buffer.take (idxToRemove * size) ++ buffer.drop (idxToRemove * size + size)

/-- Map.prototype.has on the _triWallMap association list. -/
def mapHas (m : List (String × ℕ)) (id : String) : Bool :=
  m.any (fun e => e.1 == id)

/-- Map.prototype.get on the _triWallMap association list (the source only
calls get after a has check, so the default for a missing key is
irrelevant). -/
def mapGet (m : List (String × ℕ)) (id : String) : ℕ :=
  ((m.find? (fun e => e.1 == id)).map Prod.snd).getD 0

/-- Map.prototype.set: replace the value at an existing key, else append a
new entry (JS Maps preserve insertion order). -/
def mapSet (m : List (String × ℕ)) (id : String) (v : ℕ) :
    List (String × ℕ) :=
  if mapHas m id then m.map (fun e => if e.1 == id then (e.1, v) else e)
  else m ++ [(id, v)]

/-- Map.prototype.delete. -/
def mapDelete (m : List (String × ℕ)) (id : String) : List (String × ℕ) :=
  m.filter (fun e => !(e.1 == id))

/-- The forEach pass of removeWall (part_001 lines 530-531) that decrements
every tracked slot greater than the removed slot. -/
def mapDecrementAbove (m : List (String × ℕ)) (idx : ℕ) :
    List (String × ℕ) :=
  m.map (fun e => if e.2 > idx then (e.1, e.2 - 1) else e)

/-- Static context of one SourceShadowWallGeometry instance: the virtual
inclusion predicate _includeWall (overridden per subclass and closed over the
light source and the canvas), the abstracted planar part of
_wallCornerCoordinates, and this.sourceType. -/
structure GeomCtx where
  inc : Wall → Bool
  planar : Wall → ℚ × ℚ × ℚ × ℚ
  sourceType : String

/-- The mutable state of one SourceShadowWallGeometry: the three attribute
buffers, the index buffer, and the _triWallMap. -/
structure GeomState where
  corner1 : List JSNum
  corner2 : List JSNum
  limited : List JSNum
  index : List ℕ
  triMap : List (String × ℕ)
  deriving DecidableEq

def emptyGeom : GeomState :=
  { corner1 := [], corner2 := [], limited := [], index := [], triMap := [] }

/-- The nine aWallCorner1 values contributed by one wall: corner1.x,
corner1.y, topZ, repeated for the three vertices. -/
def cornerData1 (ctx : GeomCtx) (w : Wall) : List JSNum :=
  let wc := wallCornerCoordinates ctx.planar w
  let c : List JSNum := [.num wc.c1x, .num wc.c1y, .num wc.topZ]
  c ++ c ++ c

/-- The nine aWallCorner2 values contributed by one wall: corner2.x,
corner2.y, bottomZ, repeated for the three vertices. -/
def cornerData2 (ctx : GeomCtx) (w : Wall) : List JSNum :=
  let wc := wallCornerCoordinates ctx.planar w
  let c : List JSNum := [.num wc.c2x, .num wc.c2y, .num wc.bottomZ]
  c ++ c ++ c

/-- One loop iteration of SourceShadowWallGeometry.constructWallGeometry
(part_001 lines 277-300); the accumulator carries the arrays being built and
the triNumber counter.  The boolean isLimited value pushed for aLimitedWall
is coerced to 0/1 when PIXI builds the Float32Array. -/
def buildStep (ctx : GeomCtx) (acc : GeomState × ℕ) (w : Wall) :
    GeomState × ℕ :=
  if !(ctx.inc w) then acc
  else
    ({ corner1 := acc.1.corner1 ++ cornerData1 ctx w
       corner2 := acc.1.corner2 ++ cornerData2 ctx w
       limited := acc.1.limited
         ++ [boolToNum (isLimited ctx.sourceType w),
             boolToNum (isLimited ctx.sourceType w),
             boolToNum (isLimited ctx.sourceType w)]
       index := acc.1.index ++ [acc.2 * 3, acc.2 * 3 + 1, acc.2 * 3 + 2]
       triMap := mapSet acc.1.triMap w.id acc.2 }, acc.2 + 1)

/-- SourceShadowWallGeometry.constructWallGeometry (part_001 lines
264-307). -/
def constructWallGeometry (ctx : GeomCtx) (walls : List Wall) : GeomState :=
  (walls.foldl (buildStep ctx) (emptyGeom, 0)).1

/-- SourceShadowWallGeometry.addWall (part_001 lines 433-468).  The limited
wall chunk is data3 = [ltd, ltd, ltd] where ltd = [this.isLimited(wall)] is a
one-element array, so TypedArray.set stores ToNumber([bool]) = NaN for each
of the three vertices (contrast constructWallGeometry, which pushes the plain
boolean). -/
def addWall (ctx : GeomCtx) (g : GeomState) (w : Wall) : GeomState :=
  if mapHas g.triMap w.id then g
  else if !(ctx.inc w) then g
  else
    { corner1 := addToBuffer g.corner1 (cornerData1 ctx w)
      corner2 := addToBuffer g.corner2 (cornerData2 ctx w)
      limited := addToBuffer g.limited
        [toNumberBoolArray (isLimited ctx.sourceType w),
         toNumberBoolArray (isLimited ctx.sourceType w),
         toNumberBoolArray (isLimited ctx.sourceType w)]
      index := addToBuffer g.index
        [g.triMap.length * 3, g.triMap.length * 3 + 1,
         g.triMap.length * 3 + 2]
      triMap := mapSet g.triMap w.id g.triMap.length }

/-- SourceShadowWallGeometry.removeWall (part_001 lines 514-538).  The
per-wall block size is attribute size times 3 vertices: 9 for the corner
buffers, 3 for aLimitedWall, and 3 for the index buffer.  The final
reindexing this.indexBuffer.data.map((value, index) => index) replaces every
element by its position, i.e. the dense range over the new length. -/
def removeWall (g : GeomState) (id : String) : GeomState :=
  if !(mapHas g.triMap id) then g
  else
    { corner1 := removeFromBuffer g.corner1 9 (mapGet g.triMap id)
      corner2 := removeFromBuffer g.corner2 9 (mapGet g.triMap id)
      limited := removeFromBuffer g.limited 3 (mapGet g.triMap id)
      index := List.range (removeFromBuffer g.index 3 (mapGet g.triMap id)).length
      triMap := mapDecrementAbove (mapDelete g.triMap id) (mapGet g.triMap id) }

/-- SourceShadowWallGeometry.CHANGE_FLAGS.WALL_COORDINATES. -/
def WALL_COORDINATE_FLAGS : List String :=
  ["c", "flags.wall-height.top", "flags.wall-height.bottom",
   "flags.elevatedvision.elevation.top",
   "flags.elevatedvision.elevation.bottom"]

/-- The coordinate branch of SourceShadowWallGeometry.updateWall (part_001
lines 477-496): when a coordinate change flag is present, overwrite the two
corner buffers in place at the wall's existing slot. -/
def updateWallCoordinates (ctx : GeomCtx) (g : GeomState) (w : Wall)
    (changes : List String) : GeomState :=
  if WALL_COORDINATE_FLAGS.any (fun f => changes.contains f) then
    { g with
      corner1 := overwriteBufferAt g.corner1 (cornerData1 ctx w)
        (mapGet g.triMap w.id)
      corner2 := overwriteBufferAt g.corner2 (cornerData2 ctx w)
        (mapGet g.triMap w.id) }
  else g

/-- SourceShadowWallGeometry.updateWall (part_001 lines 470-508): delegate to
addWall when the wall is untracked and to removeWall when it is no longer
included; otherwise overwrite the corner buffers in place when a coordinate
flag changed, and the limited buffer in place when the changes contain
this.sourceType.  The limited chunk has the same nested-array NaN coercion as
addWall and the slot is the one the wall already occupies. -/
def updateWall (ctx : GeomCtx) (g : GeomState) (w : Wall)
    (changes : List String) : GeomState :=
  if !(mapHas g.triMap w.id) then addWall ctx g w
  else if !(ctx.inc w) then removeWall g w.id
  else if changes.contains ctx.sourceType then
    { updateWallCoordinates ctx g w changes with
      limited := overwriteBufferAt
        (updateWallCoordinates ctx g w changes).limited
        [toNumberBoolArray (isLimited ctx.sourceType w),
         toNumberBoolArray (isLimited ctx.sourceType w),
         toNumberBoolArray (isLimited ctx.sourceType w)]
        (mapGet g.triMap w.id) }
  else updateWallCoordinates ctx g w changes

/-- One host mutation event forwarded to the geometry (createWall /
updateWall / deleteWall hooks). -/
inductive WallOp where
  | add (w : Wall)
  | upd (w : Wall) (changes : List String)
  | rem (id : String)

def applyOp (ctx : GeomCtx) (g : GeomState) : WallOp → GeomState
  | .add w => addWall ctx g w
  | .upd w changes => updateWall ctx g w changes
  | .rem id => removeWall g id

def applyOps (ctx : GeomCtx) (g : GeomState) (ops : List WallOp) : GeomState :=
  ops.foldl (applyOp ctx) g

/-- The slot-density and bijection invariant of claim C1: the index buffer is
the dense range 0..3N-1 for N the tracked-wall count, and the id-to-slot map
is a bijection from the tracked ids onto the slots 0..N-1 (no duplicate ids,
and the multiset of slots is exactly 0..N-1). -/
def Inv (g : GeomState) : Prop :=
  g.index = List.range (3 * g.triMap.length)
  ∧ (g.triMap.map Prod.snd).Perm (List.range g.triMap.length)
  ∧ (g.triMap.map Prod.fst).Nodup

/- ===== Fragment stage of ShadowWallShader ===== -/

/-- Shader define LIMITED_WALL (CONST.WALL_SENSE_TYPES.LIMITED). -/
def LIMITED_WALL : ℚ := 10

/-- Shader define PROXIMATE_WALL. -/
def PROXIMATE_WALL : ℚ := 30

/-- Shader define DISTANCE_WALL. -/
def DISTANCE_WALL : ℚ := 40

/-- noShadow() (ShadowWallShader.fragmentShader lines 291-296) with the
SHADOW define absent, as in the shipped shader: vec4(1.0), the fully-lit
encoding. -/
def noShadow : ℚ × ℚ × ℚ × ℚ := (1, 1, 1, 1)

/-- lightEncoding (ShadowWallShader.fragmentShader lines 298-314, SHADOW
absent): full light is encoded as all ones; otherwise channel 0 is the light
fraction for a non-limited wall, channel 1 the wall-type marker, channel 2
the light fraction for a limited wall. -/
def lightEncoding (fWallSenseType light : ℚ) : ℚ × ℚ × ℚ × ℚ :=
  if light = 1 then noShadow
  else
    let ltd : ℚ := if fWallSenseType = LIMITED_WALL then 1 else 0
    let ltdInv : ℚ := 1 - ltd
    (light * ltdInv + ltd, 1 - 1 / 2 * ltd, light * ltd + ltdInv, 1)

/-- Modelled from the spec: the helper between of GLSLFunctions.js is not
under src/.  Per the fragment-stage contract (a fragment between the start
and end shadow ratios is in full shadow, one in front of the near ratio or
behind the far ratio is in full light), it is the inclusive interval
membership indicator. -/
def between (mn mx x : ℚ) : ℚ := if mn ≤ x ∧ x ≤ mx then 1 else 0

/-- Modelled from the spec: the helper distanceSquared of GLSLFunctions.js is
not under src/; the threshold test compares the squared Euclidean distance
from the fragment to the light against the squared threshold radius. -/
def distanceSquared (ax ay bx bY : ℚ) : ℚ :=
  (ax - bx) * (ax - bx) + (ay - bY) * (ay - bY)

/-- elevateShadowRatios (ShadowWallShader.fragmentShader lines 254-261),
with the vec2s written componentwise: the near component pairs with the wall
bottom height and the far component with the wall top height (the GLSL
swizzle wallHeights.yx).  A zero wall height makes the corresponding JS
division produce Infinity, but that component is then overwritten by the
final guards, exactly as the rational division-by-zero junk value is
overwritten here. -/
def elevateShadowRatios (nearRatio farRatio wallTopH wallBottomH wallRatio
    elevChange : ℚ) : ℚ × ℚ :=
  let nearDist := wallRatio - nearRatio
  let farDist := wallRatio - farRatio
  let nearFraction := elevChange / wallBottomH
  let farFraction := elevChange / wallTopH
  let nf : ℚ × ℚ :=
    (nearRatio + nearFraction * nearDist, farRatio + farFraction * farDist)
  let nf := if wallBottomH = 0 then (1, nf.2) else nf
  if wallTopH = 0 then (nf.1, 1) else nf

/-- Inputs of one evaluation of the point-source fragment shader main():
varyings from the vertex stage, flat per-wall values, uniforms, and the
terrain elevation returned by terrainElevation() (the texture lookup is
abstracted as this input). -/
structure FragIn where
  vBaryX : ℚ
  fWallRatio : ℚ
  fNearRatio : ℚ
  fWallTopZ : ℚ
  fWallBottomZ : ℚ
  fWallSenseType : ℚ
  fThresholdRadius2 : ℚ
  posX : ℚ
  posY : ℚ
  lightX : ℚ
  lightY : ℚ
  lightZ : ℚ
  canvasElevation : ℚ
  elevation : ℚ
  deriving DecidableEq

/-- ShadowWallShader.fragmentShader main() (lines 316-372), with the
fragment color returned rather than assigned: terrain above the light yields
the full-shadow encoding; a fragment strictly in front of the wall, a
threshold-exempt fragment, or terrain above the wall top returns the
fully-lit default; otherwise the near/far shadow ratios (elevated when the
terrain is above the canvas) decide the light percentage. -/
def fragMain (i : FragIn) : ℚ × ℚ × ℚ × ℚ :=
  if i.elevation > i.lightZ then lightEncoding i.fWallSenseType 0
  else if i.vBaryX > i.fWallRatio then noShadow
  else if (i.fWallSenseType = DISTANCE_WALL ∨ i.fWallSenseType = PROXIMATE_WALL)
      ∧ i.fThresholdRadius2 ≠ 0
      ∧ distanceSquared i.posX i.posY i.lightX i.lightY < i.fThresholdRadius2 then
    noShadow
  else if i.elevation > i.fWallTopZ then noShadow
  else
    let nearFar : ℚ × ℚ :=
      if i.elevation > i.canvasElevation then
        elevateShadowRatios i.fNearRatio 0
          (max (i.fWallTopZ - i.canvasElevation) 0)
          (max (i.fWallBottomZ - i.canvasElevation) 0)
          i.fWallRatio (i.elevation - i.canvasElevation)
      else (i.fNearRatio, 0)
    let lightPercentage := 1 - between nearFar.2 nearFar.1 i.vBaryX
    lightEncoding i.fWallSenseType lightPercentage

/- ===== Concrete instances used by counterexamples and witnesses ===== -/

/-- A concrete planar-corner function for instantiating the abstracted
endpoint extension: it returns the raw endpoints. -/
def planarId : Wall → ℚ × ℚ × ℚ × ℚ := fun w => (w.aX, w.aY, w.bX, w.bY)

/-- A concrete geometry context: the base-class inclusion predicate for a
light source at elevation 50 over a canvas whose minimum elevation is 0. -/
def ctx0 : GeomCtx :=
  { inc := includeWall 50 0, planar := planarId, sourceType := "light" }

/-- A plain wall: normal light sense, vertical span 0..10, not a door. -/
def bandWall : Wall :=
  { id := "w9", aX := 0, aY := 0, bX := 10, bY := 0, topZ := 10, bottomZ := 0,
    isDoor := false, isOpen := false, senses := [("light", 20)] }

/-- A second plain wall with a distinct id. -/
def bandWall2 : Wall :=
  { id := "w2", aX := 0, aY := 5, bX := 10, bY := 5, topZ := 20, bottomZ := 0,
    isDoor := false, isOpen := false, senses := [("light", 20)] }

/-- An open door that is not parallel to the directional axis (0,1). -/
def openDoorWall : Wall :=
  { id := "door", aX := 0, aY := 0, bX := 10, bY := 0, topZ := 100,
    bottomZ := 0, isDoor := true, isOpen := true, senses := [("light", 20)] }

/-- A wall parallel to the directional axis (1,0). -/
def parallelWall : Wall :=
  { id := "par", aX := 0, aY := 0, bX := 5, bY := 0, topZ := 100,
    bottomZ := 0, isDoor := false, isOpen := false,
    senses := [("light", 20)] }

/-- A finite wall whose top elevation 2^54 exceeds Number.MAX_SAFE_INTEGER. -/
def bigWall : Wall :=
  { id := "big", aX := 0, aY := 0, bX := 10, bY := 0, topZ := 2 ^ 54,
    bottomZ := 0, isDoor := false, isOpen := false,
    senses := [("light", 20)] }

/-- A geometry state whose aWallCorner1 buffer length 1 is not a multiple of
the 9-element chunk size, while the other buffers are consistently empty. -/
def brokenGeom : GeomState :=
  { corner1 := [.num 0], corner2 := [], limited := [], index := [],
    triMap := [] }

/-- Fragment input with terrain elevation 10 above the light elevation 5. -/
def fragElevAboveLight : FragIn :=
  { vBaryX := 0, fWallRatio := 1 / 2, fNearRatio := 1 / 2, fWallTopZ := 100,
    fWallBottomZ := 0, fWallSenseType := 0, fThresholdRadius2 := 0,
    posX := 0, posY := 0, lightX := 0, lightY := 0, lightZ := 5,
    canvasElevation := 0, elevation := 10 }

/-- Fragment input lying exactly on the wall (vBary.x = fWallRatio = 1/2)
over terrain at elevation 75, between the wall bottom 50 and top 100. -/
def fragOnWallShadowed : FragIn :=
  { vBaryX := 1 / 2, fWallRatio := 1 / 2, fNearRatio := 2 / 5,
    fWallTopZ := 100, fWallBottomZ := 50, fWallSenseType := 0,
    fThresholdRadius2 := 0, posX := 0, posY := 0, lightX := 0, lightY := 0,
    lightZ := 200, canvasElevation := 0, elevation := 75 }

/-- Fragment input with terrain elevation 150 above the wall top 100 but
below the light elevation 200. -/
def fragOverWallTop : FragIn :=
  { vBaryX := 1 / 4, fWallRatio := 1 / 2, fNearRatio := 1 / 2,
    fWallTopZ := 100, fWallBottomZ := 0, fWallSenseType := 0,
    fThresholdRadius2 := 0, posX := 0, posY := 0, lightX := 0, lightY := 0,
    lightZ := 200, canvasElevation := 0, elevation := 150 }

/-- Fragment input strictly in front of the wall (vBary.x = 3/4 above
fWallRatio = 1/2) on canvas-level terrain. -/
def fragFrontOfWall : FragIn :=
  { vBaryX := 3 / 4, fWallRatio := 1 / 2, fNearRatio := 1 / 2,
    fWallTopZ := 100, fWallBottomZ := 0, fWallSenseType := 0,
    fThresholdRadius2 := 0, posX := 0, posY := 0, lightX := 0, lightY := 0,
    lightZ := 200, canvasElevation := 0, elevation := 0 }

/-- Fragment input exactly on the wall (vBary.x = fWallRatio = 1/2) on
canvas-level terrain, with the near shadow ratio 2/5 strictly below the wall
ratio. -/
def fragOnWallLit : FragIn :=
  { vBaryX := 1 / 2, fWallRatio := 1 / 2, fNearRatio := 2 / 5,
    fWallTopZ := 100, fWallBottomZ := 50, fWallSenseType := 0,
    fThresholdRadius2 := 0, posX := 0, posY := 0, lightX := 0, lightY := 0,
    lightZ := 200, canvasElevation := 0, elevation := 0 }

/- ===== Theorems ===== -/

/-- C7: the fragment light-encoding function maps a light fraction L to
(r, g, b) = (L, 1, 1) for a non-limited wall and (1, 0.5, L) for a limited
wall, with L = 1 encoded as all ones; two non-limited walls at fraction 0.5
compose by channel-0 multiplication to 0.25, and a limited wall at fraction
0.5 composed with itself yields channel-2 0.25 while channel 0 stays 1. -/
theorem C7_lightEncoding_spec :
    (∀ s L : ℚ, s ≠ LIMITED_WALL → L ≠ 1 → lightEncoding s L = (L, 1, 1, 1))
    ∧ (∀ L : ℚ, L ≠ 1 → lightEncoding LIMITED_WALL L = (1, 1 / 2, L, 1))
    ∧ (∀ s : ℚ, lightEncoding s 1 = (1, 1, 1, 1))
    ∧ (lightEncoding 0 (1 / 2)).1 * (lightEncoding 0 (1 / 2)).1 = 1 / 4
    ∧ (lightEncoding LIMITED_WALL (1 / 2)).2.2.1
        * (lightEncoding LIMITED_WALL (1 / 2)).2.2.1 = 1 / 4
    ∧ (lightEncoding LIMITED_WALL (1 / 2)).1
        * (lightEncoding LIMITED_WALL (1 / 2)).1 = 1 := by
  refine ⟨?_, ?_, ?_, by norm_num [lightEncoding, LIMITED_WALL, noShadow],
    by norm_num [lightEncoding, LIMITED_WALL, noShadow],
    by norm_num [lightEncoding, LIMITED_WALL, noShadow]⟩
  · intro s L hs hL
    simp only [lightEncoding, if_neg hL, if_neg hs]
    norm_num
  · intro L hL
    simp only [lightEncoding, if_neg hL, if_pos rfl]
    norm_num
  · intro s
    simp [lightEncoding, noShadow]

/-- Witness for C7 at the concrete fraction 1/2. -/
theorem C7_lightEncoding_spec_witness :
    lightEncoding 0 (1 / 2) = (1 / 2, 1, 1, 1)
    ∧ lightEncoding LIMITED_WALL (1 / 2) = (1, 1 / 2, 1 / 2, 1) :=
  ⟨C7_lightEncoding_spec.1 0 (1 / 2) (by norm_num [LIMITED_WALL])
      (by norm_num),
   C7_lightEncoding_spec.2.1 (1 / 2) (by norm_num)⟩

/-- C3 counterexample: at terrain elevation 10 strictly above the light
elevation 5, the fragment output is the full-shadow encoding, not the
fully-lit encoding claimed. -/
theorem C3_counterexample :
    fragElevAboveLight.elevation > fragElevAboveLight.lightZ
    ∧ fragMain fragElevAboveLight ≠ noShadow := by
  refine ⟨by decide, ?_⟩
  norm_num [fragMain, fragElevAboveLight, lightEncoding, noShadow,
    LIMITED_WALL, DISTANCE_WALL, PROXIMATE_WALL, between, distanceSquared,
    elevateShadowRatios]

/-- C3 (amended): terrain elevation strictly above the light yields the
full-shadow encoding lightEncoding(0) with an early exit; when the terrain
does not exceed the light but strictly exceeds the wall top, the output is
the fully-lit encoding. -/
theorem C3_terrain_elevation_exits (i : FragIn) :
    (i.elevation > i.lightZ → fragMain i = lightEncoding i.fWallSenseType 0)
    ∧ (i.elevation ≤ i.lightZ → i.elevation > i.fWallTopZ →
        fragMain i = noShadow) := by
  constructor
  · intro h
    unfold fragMain
    rw [if_pos h]
  · intro h1 h2
    unfold fragMain
    rw [if_neg (not_lt.mpr h1)]
    by_cases h3 : i.vBaryX > i.fWallRatio
    · rw [if_pos h3]
    · rw [if_neg h3]
      by_cases h4 : (i.fWallSenseType = DISTANCE_WALL
            ∨ i.fWallSenseType = PROXIMATE_WALL)
          ∧ i.fThresholdRadius2 ≠ 0
          ∧ distanceSquared i.posX i.posY i.lightX i.lightY
              < i.fThresholdRadius2
      · rw [if_pos h4]
      · rw [if_neg h4, if_pos h2]

/-- Witness for C3 (amended) at concrete fragment inputs. -/
theorem C3_terrain_elevation_exits_witness :
    fragMain fragElevAboveLight
        = lightEncoding fragElevAboveLight.fWallSenseType 0
    ∧ fragMain fragOverWallTop = noShadow :=
  ⟨(C3_terrain_elevation_exits fragElevAboveLight).1 (by decide),
   (C3_terrain_elevation_exits fragOverWallTop).2 (by decide) (by decide)⟩

/-- C8 counterexample: a fragment exactly at vBary.x = fWallRatio over
terrain at elevation 75 (between the wall bottom 50 and top 100) receives the
full-shadow encoding, not the fully-lit encoding claimed. -/
theorem C8_counterexample :
    fragOnWallShadowed.vBaryX = fragOnWallShadowed.fWallRatio
    ∧ fragMain fragOnWallShadowed ≠ noShadow := by
  refine ⟨rfl, ?_⟩
  norm_num [fragMain, fragOnWallShadowed, lightEncoding, noShadow,
    LIMITED_WALL, DISTANCE_WALL, PROXIMATE_WALL, between, distanceSquared,
    elevateShadowRatios]

/-- C8 (amended): the in-front test is strict, so vBary.x strictly above
fWallRatio (terrain not above the light) exits fully lit; at exactly
vBary.x = fWallRatio the fragment falls through to the shadow computation
and is fully lit provided the terrain elevation is at most the canvas
elevation and fNearRatio is strictly below fWallRatio. -/
theorem C8_wall_ratio_boundary (i : FragIn) :
    (i.vBaryX > i.fWallRatio → i.elevation ≤ i.lightZ →
        fragMain i = noShadow)
    ∧ (i.vBaryX = i.fWallRatio → i.elevation ≤ i.lightZ →
        i.elevation ≤ i.canvasElevation → i.fNearRatio < i.fWallRatio →
        fragMain i = noShadow) := by
  constructor
  · intro h1 h2
    unfold fragMain
    rw [if_neg (not_lt.mpr h2), if_pos h1]
  · intro hx h1 hc hn
    unfold fragMain
    rw [if_neg (not_lt.mpr h1)]
    rw [if_neg (by rw [hx]; exact lt_irrefl _ : ¬ i.vBaryX > i.fWallRatio)]
    by_cases h4 : (i.fWallSenseType = DISTANCE_WALL
          ∨ i.fWallSenseType = PROXIMATE_WALL)
        ∧ i.fThresholdRadius2 ≠ 0
        ∧ distanceSquared i.posX i.posY i.lightX i.lightY
            < i.fThresholdRadius2
    · rw [if_pos h4]
    · rw [if_neg h4]
      by_cases h5 : i.elevation > i.fWallTopZ
      · rw [if_pos h5]
      · rw [if_neg h5, if_neg (not_lt.mpr hc)]
        have hb : between 0 i.fNearRatio i.vBaryX = 0 := by
          unfold between
          rw [if_neg]
          rintro ⟨-, h⟩
          rw [hx] at h
          exact absurd h (not_le.mpr hn)
        simp only [hb]
        simp [lightEncoding, noShadow]

/-- Witness for C8 (amended) at concrete fragment inputs. -/
theorem C8_wall_ratio_boundary_witness :
    fragMain fragFrontOfWall = noShadow
    ∧ fragMain fragOnWallLit = noShadow :=
  ⟨(C8_wall_ratio_boundary fragFrontOfWall).1 (by norm_num [fragFrontOfWall])
      (by decide),
   (C8_wall_ratio_boundary fragOnWallLit).2 rfl (by decide) (by decide)
      (by norm_num [fragOnWallLit])⟩

/-- C5 counterexample: an open door that is not parallel to the directional
axis (0,1) is included by the directional inclusion predicate, which the
claim says must exclude open doors. -/
theorem C5_counterexample :
    openDoorWall.isDoor = true ∧ openDoorWall.isOpen = true
    ∧ directionalIncludeWall 0 1 openDoorWall = true := by
  refine ⟨rfl, rfl, ?_⟩
  norm_num [directionalIncludeWall, orient2dFast, almostZero, openDoorWall]

/-- C5 (amended): the directional variant's inclusion predicate rejects
walls parallel to the directional axis, but applies neither the open-door
nor the viewing-band test: its outcome is independent of the wall's door
state and vertical span (the override does not call the base predicate). -/
theorem C5_directional_inclusion (dirX dirY t : ℚ) (w : Wall)
    (hx : w.bX - w.aX = t * dirX) (hy : w.bY - w.aY = t * dirY) :
    directionalIncludeWall dirX dirY w = false
    ∧ ∀ (d o : Bool) (tz bz : ℚ),
        directionalIncludeWall dirX dirY
            { w with isDoor := d, isOpen := o, topZ := tz, bottomZ := bz }
          = directionalIncludeWall dirX dirY w := by
  constructor
  · have e : orient2dFast w.aX w.aY w.bX w.bY (w.aX + dirX) (w.aY + dirY)
        = 0 := by
      have hbx : w.bX = w.aX + t * dirX := by linarith
      have hby : w.bY = w.aY + t * dirY := by linarith
      rw [orient2dFast, hbx, hby]; ring
    simp only [directionalIncludeWall, e]
    norm_num [almostZero]
  · intro d o tz bz
    rfl

/-- Witness for C5 (amended) at the concrete axis (1,0) and the parallel
wall. -/
theorem C5_directional_inclusion_witness :
    directionalIncludeWall 1 0 parallelWall = false
    ∧ directionalIncludeWall 1 0
        { parallelWall with isDoor := true, isOpen := true, topZ := 0, bottomZ := 0 }
      = directionalIncludeWall 1 0 parallelWall :=
  ⟨(C5_directional_inclusion 1 0 5 parallelWall (by norm_num [parallelWall])
      (by norm_num [parallelWall])).1,
   (C5_directional_inclusion 1 0 5 parallelWall (by norm_num [parallelWall])
      (by norm_num [parallelWall])).2 true true 0 0⟩

/-- C9 counterexample: a wall with top 10 and bottom 0 over minimum canvas
elevation 5 is excluded at light elevation 3 because the clamped span is
empty, yet raising the light to 20 (above the wall top) makes the wall
included. -/
theorem C9_counterexample :
    includeWall 3 5 bandWall = false
    ∧ min bandWall.topZ 3 ≤ max bandWall.bottomZ 5
    ∧ bandWall.topZ < 20
    ∧ includeWall 20 5 bandWall = true := by decide

/-- C9 (amended): if a wall is excluded because the clamped span is empty
while the light is already at or above the wall top, then the wall stays
excluded at every other light elevation. -/
theorem C9_exclusion_monotone (w : Wall) (e e2 minE : ℚ)
    (hTop : w.topZ ≤ e)
    (hExcl : min w.topZ e ≤ max w.bottomZ minE) :
    includeWall e2 minE w = false := by
  simp only [includeWall]
  by_cases hd : w.isDoor && w.isOpen
  · rw [if_pos hd]
  · rw [if_neg hd]
    have h1 : min w.topZ e2 ≤ max w.bottomZ minE :=
      le_trans (min_le_left _ _) (by rwa [min_eq_left hTop] at hExcl)
    rw [if_pos h1]

/-- Witness for C9 (amended): the same wall under minimum canvas elevation
15 is band-excluded at light elevation 10 = wall top, hence excluded at
light elevation 50 as well. -/
theorem C9_exclusion_monotone_witness :
    includeWall 50 15 bandWall = false :=
  C9_exclusion_monotone bandWall 10 50 15 (by decide) (by decide)

/-- C10 counterexample: a finite wall with top elevation 2^54 (beyond
Number.MAX_SAFE_INTEGER) has a stored vertical extent strictly smaller than
its actual extent, refuting strict growth for every finite wall. -/
theorem C10_counterexample :
    (wallCornerCoordinates planarId bigWall).topZ
        - (wallCornerCoordinates planarId bigWall).bottomZ
      < bigWall.topZ - bigWall.bottomZ := by
  have e1 : (wallCornerCoordinates planarId bigWall).topZ
      = MAX_SAFE_INTEGER := by
    show min (bigWall.topZ + WALL_OFFSET_PIXELS) MAX_SAFE_INTEGER
        = MAX_SAFE_INTEGER
    apply min_eq_right
    norm_num [bigWall, WALL_OFFSET_PIXELS, MAX_SAFE_INTEGER]
  have e2 : (wallCornerCoordinates planarId bigWall).bottomZ
      = bigWall.bottomZ - WALL_OFFSET_PIXELS := by
    show max (bigWall.bottomZ - WALL_OFFSET_PIXELS) MIN_SAFE_INTEGER
        = bigWall.bottomZ - WALL_OFFSET_PIXELS
    apply max_eq_left
    norm_num [bigWall, WALL_OFFSET_PIXELS, MIN_SAFE_INTEGER]
  rw [e1, e2]
  norm_num [bigWall, WALL_OFFSET_PIXELS, MAX_SAFE_INTEGER]

/-- C10 (amended): the stored vertical span is topZ = min(wall.topZ + 2,
MAX_SAFE_INTEGER) and bottomZ = max(wall.bottomZ - 2, MIN_SAFE_INTEGER), and
every wall whose elevations lie within the safe-integer range (not both
exactly at the clamps) has a stored vertical extent strictly larger than its
actual extent. -/
theorem C10_vertical_padding (planar : Wall → ℚ × ℚ × ℚ × ℚ) (w : Wall)
    (hT : w.topZ ≤ MAX_SAFE_INTEGER) (hB : MIN_SAFE_INTEGER ≤ w.bottomZ)
    (hne : w.topZ < MAX_SAFE_INTEGER ∨ MIN_SAFE_INTEGER < w.bottomZ) :
    (wallCornerCoordinates planar w).topZ
        = min (w.topZ + 2) MAX_SAFE_INTEGER
    ∧ (wallCornerCoordinates planar w).bottomZ
        = max (w.bottomZ - 2) MIN_SAFE_INTEGER
    ∧ (wallCornerCoordinates planar w).topZ
          - (wallCornerCoordinates planar w).bottomZ
        > w.topZ - w.bottomZ := by
  refine ⟨rfl, rfl, ?_⟩
  have htop : (wallCornerCoordinates planar w).topZ
      = min (w.topZ + 2) MAX_SAFE_INTEGER := rfl
  have hbot : (wallCornerCoordinates planar w).bottomZ
      = max (w.bottomZ - 2) MIN_SAFE_INTEGER := rfl
  rw [htop, hbot]
  have h2 : max (w.bottomZ - 2) MIN_SAFE_INTEGER ≤ w.bottomZ :=
    max_le (by linarith) hB
  have h1 : w.topZ ≤ min (w.topZ + 2) MAX_SAFE_INTEGER :=
    le_min (by linarith) hT
  rcases hne with h | h
  · have h3 : w.topZ < min (w.topZ + 2) MAX_SAFE_INTEGER :=
      lt_min (by linarith) h
    linarith
  · have h3 : max (w.bottomZ - 2) MIN_SAFE_INTEGER < w.bottomZ :=
      max_lt (by linarith) h
    linarith

/-- Witness for C10 (amended) at the concrete wall with span 0..10. -/
theorem C10_vertical_padding_witness :
    (wallCornerCoordinates planarId bandWall).topZ
        = min (bandWall.topZ + 2) MAX_SAFE_INTEGER
    ∧ (wallCornerCoordinates planarId bandWall).bottomZ
        = max (bandWall.bottomZ - 2) MIN_SAFE_INTEGER
    ∧ (wallCornerCoordinates planarId bandWall).topZ
          - (wallCornerCoordinates planarId bandWall).bottomZ
        > bandWall.topZ - bandWall.bottomZ :=
  C10_vertical_padding planarId bandWall
    (by norm_num [bandWall, MAX_SAFE_INTEGER])
    (by norm_num [bandWall, MIN_SAFE_INTEGER])
    (Or.inl (by norm_num [bandWall, MAX_SAFE_INTEGER]))

/-- C4 counterexample: with the aWallCorner1 buffer corrupted to length 1,
addWall detects the mismatch on that buffer (it is left unchanged) yet still
mutates the aWallCorner2 buffer and the id-to-slot map, so the call does not
leave all buffers and the map in their prior state. -/
theorem C4_counterexample :
    brokenGeom.corner1.length % 9 ≠ 0
    ∧ (addWall ctx0 brokenGeom bandWall).corner1 = brokenGeom.corner1
    ∧ (addWall ctx0 brokenGeom bandWall).corner2 ≠ brokenGeom.corner2
    ∧ (addWall ctx0 brokenGeom bandWall).triMap ≠ brokenGeom.triMap := by
  decide

/-- C4 (amended): a splice helper that detects a size mismatch leaves its own
buffer unchanged, but the enclosing call continues rather than aborting: in
addWall the slot map is still extended even though the mismatched
aWallCorner1 buffer is untouched. -/
theorem C4_mismatch_not_atomic (ctx : GeomCtx) (g : GeomState) (w : Wall)
    (hhas : mapHas g.triMap w.id = false) (hinc : ctx.inc w = true)
    (hmis : g.corner1.length % 9 ≠ 0) :
    (addWall ctx g w).corner1 = g.corner1
    ∧ (addWall ctx g w).triMap = g.triMap ++ [(w.id, g.triMap.length)] := by
  have hlen : (cornerData1 ctx w).length = 9 := rfl
  have hbuf : addToBuffer g.corner1 (cornerData1 ctx w) = g.corner1 := by
    unfold addToBuffer
    rw [hlen, if_pos (Or.inr hmis)]
  simp [addWall, mapSet, hhas, hinc, hbuf]

/-- Witness for C4 (amended) at the concrete corrupted state. -/
theorem C4_mismatch_not_atomic_witness :
    (addWall ctx0 brokenGeom bandWall).corner1 = brokenGeom.corner1
    ∧ (addWall ctx0 brokenGeom bandWall).triMap
        = brokenGeom.triMap ++ [(bandWall.id, brokenGeom.triMap.length)] :=
  C4_mismatch_not_atomic ctx0 brokenGeom bandWall (by decide) (by decide)
    (by decide)

/-- C2 (code bug): building from the empty wall list and then calling
addWall stores NaN (the coercion of the nested one-element array) in every
aLimitedWall entry, while the one-shot full build of the same wall stores the
coerced boolean 0; the corner and index buffers and the slot map agree, so
the divergence is exactly the aLimitedWall chunk. -/
theorem C2_incremental_add_diverges :
    (addWall ctx0 (constructWallGeometry ctx0 []) bandWall).corner1
        = (constructWallGeometry ctx0 [bandWall]).corner1
    ∧ (addWall ctx0 (constructWallGeometry ctx0 []) bandWall).corner2
        = (constructWallGeometry ctx0 [bandWall]).corner2
    ∧ (addWall ctx0 (constructWallGeometry ctx0 []) bandWall).index
        = (constructWallGeometry ctx0 [bandWall]).index
    ∧ (addWall ctx0 (constructWallGeometry ctx0 []) bandWall).triMap
        = (constructWallGeometry ctx0 [bandWall]).triMap
    ∧ (addWall ctx0 (constructWallGeometry ctx0 []) bandWall).limited
        = [.nan, .nan, .nan]
    ∧ (constructWallGeometry ctx0 [bandWall]).limited
        = [.num 0, .num 0, .num 0]
    ∧ (addWall ctx0 (constructWallGeometry ctx0 []) bandWall).limited
        ≠ (constructWallGeometry ctx0 [bandWall]).limited := by
  refine ⟨rfl, rfl, rfl, rfl, rfl, rfl, by decide⟩

/- ===== Helper lemmas for the buffer and map operations ===== -/

theorem addToBuffer_append {α : Type} (buffer data : List α)
    (h0 : data.length ≠ 0) (hmod : buffer.length % data.length = 0) :
    addToBuffer buffer data = buffer ++ data := by
  unfold addToBuffer
  rw [if_neg]
  push_neg
  exact ⟨h0, hmod⟩

theorem overwriteBufferAt_splice {α : Type} (buffer data : List α) (s n : ℕ)
    (hlen : buffer.length = data.length * n) (h0 : data.length ≠ 0)
    (hs : s < n) :
    overwriteBufferAt buffer data s
      = buffer.take (s * data.length) ++ data
        ++ buffer.drop (s * data.length + data.length) := by
  have hle : s * data.length + data.length ≤ buffer.length := by
    rw [hlen]
    calc s * data.length + data.length = (s + 1) * data.length := by ring
      _ ≤ n * data.length := Nat.mul_le_mul_right _ hs
      _ = data.length * n := Nat.mul_comm _ _
  have h1 : ¬(data.length = 0 ∨ buffer.length % data.length ≠ 0
      ∨ s * data.length > buffer.length) := by
    push_neg
    refine ⟨h0, ?_, by omega⟩
    rw [hlen]
    exact Nat.mul_mod_right _ _
  unfold overwriteBufferAt
  rw [if_neg h1, if_pos hle]

theorem overwriteBufferAt_splice_length {α : Type} (buffer data : List α)
    (s n : ℕ) (hlen : buffer.length = data.length * n)
    (h0 : data.length ≠ 0) (hs : s < n) :
    (overwriteBufferAt buffer data s).length = buffer.length := by
  have hle : s * data.length + data.length ≤ buffer.length := by
    rw [hlen]
    calc s * data.length + data.length = (s + 1) * data.length := by ring
      _ ≤ n * data.length := Nat.mul_le_mul_right _ hs
      _ = data.length * n := Nat.mul_comm _ _
  rw [overwriteBufferAt_splice buffer data s n hlen h0 hs]
  simp only [List.length_append, List.length_take, List.length_drop]
  omega

theorem removeFromBuffer_length {α : Type} (buffer : List α) (k v n : ℕ)
    (hk : k ≠ 0) (hlen : buffer.length = k * n) (hv : v < n) :
    (removeFromBuffer buffer k v).length = k * n - k := by
  have hle : v * k + k ≤ k * n := by
    calc v * k + k = (v + 1) * k := by ring
      _ ≤ n * k := Nat.mul_le_mul_right _ hv
      _ = k * n := Nat.mul_comm _ _
  have h1 : ¬(k = 0 ∨ buffer.length % k ≠ 0 ∨ v * k > buffer.length) := by
    push_neg
    refine ⟨hk, ?_, by omega⟩
    rw [hlen]
    exact Nat.mul_mod_right _ _
  unfold removeFromBuffer
  rw [if_neg h1]
  by_cases h2 : buffer.length - k = 0
  · rw [if_pos h2]
    simp only [List.length_nil]
    omega
  · rw [if_neg h2]
    simp only [List.length_append, List.length_take, List.length_drop]
    omega

theorem mapHas_false_not_mem {m : List (String × ℕ)} {id : String}
    (h : mapHas m id = false) : id ∉ m.map Prod.fst := by
  intro hmem
  obtain ⟨e, hem, he⟩ := List.mem_map.mp hmem
  have ht : mapHas m id = true := by
    unfold mapHas
    exact List.any_eq_true.mpr ⟨e, hem, by simp [he]⟩
  rw [ht] at h
  cases h

theorem mapHas_true_mem {m : List (String × ℕ)} {id : String}
    (h : mapHas m id = true) : id ∈ m.map Prod.fst := by
  obtain ⟨e, hem, he⟩ := List.any_eq_true.mp h
  exact List.mem_map.mpr ⟨e, hem, by simpa using he⟩

theorem mapSet_of_not_has {m : List (String × ℕ)} {id : String} (v : ℕ)
    (h : mapHas m id = false) : mapSet m id v = m ++ [(id, v)] := by
  simp [mapSet, h]

theorem mapDelete_cons_perm {m : List (String × ℕ)} {id : String}
    (hn : (m.map Prod.fst).Nodup) (hh : mapHas m id = true) :
    m.Perm ((id, mapGet m id) :: mapDelete m id) := by
  induction m with
  | nil => simp [mapHas] at hh
  | cons e rest ih =>
    have hncons : (e.1 :: rest.map Prod.fst).Nodup := by
      rw [List.map_cons] at hn
      exact hn
    by_cases he : e.1 = id
    · have hbeq : (e.1 == id) = true := by simp [he]
      have hget : mapGet (e :: rest) id = e.2 := by
        unfold mapGet
        simp [List.find?_cons, hbeq]
      have hid_not : id ∉ rest.map Prod.fst := by
        have h1 := (List.nodup_cons.mp hncons).1
        rwa [he] at h1
      have hdel : mapDelete (e :: rest) id = rest := by
        unfold mapDelete
        rw [List.filter_cons]
        simp only [hbeq, Bool.not_true, cond_false]
        apply List.filter_eq_self.mpr
        intro a ha
        have hne : a.1 ≠ id := fun hc => hid_not (List.mem_map.mpr ⟨a, ha, hc⟩)
        simp [hne]
      rw [hget, hdel]
      have hee : (id, e.2) = e := by
        rw [← he]
      rw [hee]
    · have hbeq : (e.1 == id) = false := by simp [he]
      have hh' : mapHas rest id = true := by
        simp only [mapHas, List.any_cons, hbeq, Bool.false_or] at hh ⊢
        exact hh
      have hget : mapGet (e :: rest) id = mapGet rest id := by
        unfold mapGet
        simp [List.find?_cons, hbeq]
      have hdel : mapDelete (e :: rest) id = e :: mapDelete rest id := by
        unfold mapDelete
        rw [List.filter_cons]
        simp [hbeq]
      have hn' : (rest.map Prod.fst).Nodup := (List.nodup_cons.mp hncons).2
      rw [hget, hdel]
      exact ((ih hn' hh').cons e).trans (List.Perm.swap _ _ _)

theorem keys_mapDecrementAbove (m : List (String × ℕ)) (idx : ℕ) :
    (mapDecrementAbove m idx).map Prod.fst = m.map Prod.fst := by
  simp only [mapDecrementAbove, List.map_map]
  apply List.map_congr_left
  intro a _
  by_cases h : a.2 > idx <;> simp [Function.comp, h]

theorem snd_mapDecrementAbove (m : List (String × ℕ)) (idx : ℕ) :
    (mapDecrementAbove m idx).map Prod.snd
      = (m.map Prod.snd).map (fun x => if x > idx then x - 1 else x) := by
  simp only [mapDecrementAbove, List.map_map]
  apply List.map_congr_left
  intro a _
  by_cases h : a.2 > idx <;> simp [Function.comp, h]

theorem nodup_keys_mapDelete {m : List (String × ℕ)} (id : String)
    (hn : (m.map Prod.fst).Nodup) :
    ((mapDelete m id).map Prod.fst).Nodup :=
  hn.sublist ((List.filter_sublist _).map Prod.fst)

theorem range_add_three (k : ℕ) :
    List.range (k + 3) = List.range k ++ [k, k + 1, k + 2] := by
  rw [show k + 3 = ((k + 1) + 1) + 1 from rfl, List.range_succ,
    List.range_succ, List.range_succ]
  simp [List.append_assoc]

theorem range_erase_decrement (v N : ℕ) (hv : v < N) :
    ((List.range N).erase v).map (fun x => if x > v then x - 1 else x)
      = List.range (N - 1) := by
  induction N with
  | zero => omega
  | succ N ih =>
    rw [List.range_succ]
    rcases Nat.lt_succ_iff_lt_or_eq.mp hv with h | h
    · rw [List.erase_append_left _ (List.mem_range.mpr h)]
      rw [List.map_append, ih h]
      simp only [List.map_cons, List.map_nil]
      rw [if_pos h, Nat.succ_sub_one, ← List.range_succ]
      congr 1
      omega
    · subst h
      rw [List.erase_append_right _ (by simp)]
      simp only [List.erase_cons_head, List.append_nil, Nat.succ_sub_one]
      have hid : ∀ x ∈ List.range v,
          (fun x => if x > v then x - 1 else x) x = x := by
        intro x hx
        have hxv : x < v := List.mem_range.mp hx
        simp only []
        rw [if_neg (by omega)]
      rw [List.map_congr_left hid, List.map_id']

/- ===== Preservation of the slot-density invariant ===== -/

theorem inv_addWall (ctx : GeomCtx) (g : GeomState) (w : Wall) (h : Inv g) :
    Inv (addWall ctx g w) := by
  obtain ⟨hidx, hperm, hkeys⟩ := h
  unfold addWall
  by_cases hh : mapHas g.triMap w.id = true
  · rw [if_pos hh]
    exact ⟨hidx, hperm, hkeys⟩
  · have hh' : mapHas g.triMap w.id = false := by
      revert hh; cases mapHas g.triMap w.id <;> simp
    rw [if_neg hh]
    by_cases hi : ctx.inc w = true
    · rw [if_neg (by simp [hi])]
      have hset := mapSet_of_not_has g.triMap.length hh'
      have hnotmem := mapHas_false_not_mem hh'
      have hmod : g.index.length % ([g.triMap.length * 3,
          g.triMap.length * 3 + 1, g.triMap.length * 3 + 2] : List ℕ).length
          = 0 := by
        rw [hidx, List.length_range]
        simp only [List.length_cons, List.length_nil]
        omega
      have hadd := addToBuffer_append g.index
        [g.triMap.length * 3, g.triMap.length * 3 + 1,
         g.triMap.length * 3 + 2] (by simp) hmod
      refine ⟨?_, ?_, ?_⟩
      · dsimp only
        rw [hadd, hset, hidx, List.length_append]
        simp only [List.length_cons, List.length_nil]
        rw [show 3 * (g.triMap.length + (0 + 1)) = 3 * g.triMap.length + 3
          by ring, range_add_three]
        simp [Nat.mul_comm]
      · dsimp only
        rw [hset, List.map_append, List.length_append]
        simp only [List.map_cons, List.map_nil, List.length_cons,
          List.length_nil]
        rw [show g.triMap.length + (0 + 1) = g.triMap.length + 1 by ring,
          List.range_succ]
        exact hperm.append (List.Perm.refl _)
      · dsimp only
        rw [hset, List.map_append]
        simp only [List.map_cons, List.map_nil]
        refine List.Nodup.append hkeys (List.nodup_singleton _) ?_
        intro a ha hb
        have hab : a = w.id := by simpa using hb
        subst hab
        exact hnotmem ha
    · have hi' : ctx.inc w = false := by
        revert hi; cases ctx.inc w <;> simp
      rw [if_pos (by simp [hi'])]
      exact ⟨hidx, hperm, hkeys⟩

theorem inv_removeWall (g : GeomState) (id : String) (h : Inv g) :
    Inv (removeWall g id) := by
  obtain ⟨hidx, hperm, hkeys⟩ := h
  unfold removeWall
  by_cases hh : mapHas g.triMap id = true
  · rw [if_neg (by simp [hh])]
    have hdelperm := mapDelete_cons_perm hkeys hh
    have hvals : (g.triMap.map Prod.snd).Perm
        (mapGet g.triMap id :: (mapDelete g.triMap id).map Prod.snd) := by
      have hm := hdelperm.map Prod.snd
      simpa using hm
    have hcons : (mapGet g.triMap id
        :: (mapDelete g.triMap id).map Prod.snd).Perm
        (List.range g.triMap.length) := hvals.symm.trans hperm
    have hvmem : mapGet g.triMap id ∈ List.range g.triMap.length :=
      hcons.subset (List.mem_cons_self _ _)
    have hvN : mapGet g.triMap id < g.triMap.length := List.mem_range.mp hvmem
    have hlen_del : (mapDelete g.triMap id).length = g.triMap.length - 1 := by
      have hlen := hdelperm.length_eq
      simp only [List.length_cons] at hlen
      omega
    have hperm_del : ((mapDelete g.triMap id).map Prod.snd).Perm
        ((List.range g.triMap.length).erase (mapGet g.triMap id)) := by
      have h1 := List.perm_cons_erase hvmem
      exact (hcons.trans h1).cons_inv
    have hlen_new : (mapDecrementAbove (mapDelete g.triMap id)
        (mapGet g.triMap id)).length = g.triMap.length - 1 := by
      simp [mapDecrementAbove, hlen_del]
    have hidxlen : g.index.length = 3 * g.triMap.length := by
      rw [hidx, List.length_range]
    have hrem : (removeFromBuffer g.index 3 (mapGet g.triMap id)).length
        = 3 * g.triMap.length - 3 :=
      removeFromBuffer_length g.index 3 (mapGet g.triMap id)
        g.triMap.length (by simp) hidxlen hvN
    refine ⟨?_, ?_, ?_⟩
    · dsimp only
      rw [hrem, hlen_new]
      congr 1
      omega
    · dsimp only
      rw [snd_mapDecrementAbove, hlen_new]
      have hmap := hperm_del.map
        (fun x => if x > mapGet g.triMap id then x - 1 else x)
      rwa [range_erase_decrement _ _ hvN] at hmap
    · dsimp only
      rw [keys_mapDecrementAbove]
      exact nodup_keys_mapDelete id hkeys
  · have hh' : mapHas g.triMap id = false := by
      revert hh; cases mapHas g.triMap id <;> simp
    rw [if_pos (by simp [hh'])]
    exact ⟨hidx, hperm, hkeys⟩

theorem inv_updateWall (ctx : GeomCtx) (g : GeomState) (w : Wall)
    (changes : List String) (h : Inv g) :
    Inv (updateWall ctx g w changes) := by
  unfold updateWall
  by_cases hh : mapHas g.triMap w.id = true
  · rw [if_neg (by simp [hh])]
    by_cases hi : ctx.inc w = true
    · rw [if_neg (by simp [hi])]
      have hcoord : Inv (updateWallCoordinates ctx g w changes) := by
        obtain ⟨h1, h2, h3⟩ := h
        unfold updateWallCoordinates
        by_cases hc : WALL_COORDINATE_FLAGS.any
            (fun f => changes.contains f) = true
        · rw [if_pos hc]
          exact ⟨h1, h2, h3⟩
        · rw [if_neg hc]
          exact ⟨h1, h2, h3⟩
      by_cases hs : changes.contains ctx.sourceType = true
      · rw [if_pos hs]
        obtain ⟨h1, h2, h3⟩ := hcoord
        exact ⟨h1, h2, h3⟩
      · rw [if_neg hs]
        exact hcoord
    · have hi' : ctx.inc w = false := by
        revert hi; cases ctx.inc w <;> simp
      rw [if_pos (by simp [hi'])]
      exact inv_removeWall g w.id h
  · have hh' : mapHas g.triMap w.id = false := by
      revert hh; cases mapHas g.triMap w.id <;> simp
    rw [if_pos (by simp [hh'])]
    exact inv_addWall ctx g w h

theorem inv_applyOp (ctx : GeomCtx) (g : GeomState) (op : WallOp)
    (h : Inv g) : Inv (applyOp ctx g op) := by
  cases op with
  | add w => exact inv_addWall ctx g w h
  | upd w changes => exact inv_updateWall ctx g w changes h
  | rem id => exact inv_removeWall g id h

theorem inv_applyOps (ctx : GeomCtx) (ops : List WallOp) :
    ∀ g : GeomState, Inv g → Inv (applyOps ctx g ops) := by
  induction ops with
  | nil => intro g h; exact h
  | cons op rest ih =>
    intro g h
    exact ih _ (inv_applyOp ctx g op h)

theorem inv_build_aux (ctx : GeomCtx) (ws : List Wall) :
    ∀ (g : GeomState) (tri : ℕ),
      (g.triMap.map Prod.fst ++ ws.map Wall.id).Nodup →
      g.index = List.range (3 * tri) →
      g.triMap.length = tri →
      (g.triMap.map Prod.snd).Perm (List.range tri) →
      Inv (ws.foldl (buildStep ctx) (g, tri)).1 := by
  induction ws with
  | nil =>
    intro g tri hn hidx hlen hperm
    simp only [List.foldl_nil]
    refine ⟨?_, ?_, ?_⟩
    · rw [hidx, hlen]
    · rw [hlen]
      exact hperm
    · simpa using hn
  | cons w ws ih =>
    intro g tri hn hidx hlen hperm
    rw [List.foldl_cons]
    by_cases hi : ctx.inc w = true
    · have hstep : buildStep ctx (g, tri) w
          = ({ corner1 := g.corner1 ++ cornerData1 ctx w
               corner2 := g.corner2 ++ cornerData2 ctx w
               limited := g.limited
                 ++ [boolToNum (isLimited ctx.sourceType w),
                     boolToNum (isLimited ctx.sourceType w),
                     boolToNum (isLimited ctx.sourceType w)]
               index := g.index ++ [tri * 3, tri * 3 + 1, tri * 3 + 2]
               triMap := mapSet g.triMap w.id tri }, tri + 1) := by
        unfold buildStep
        rw [if_neg (by simp [hi])]
      rw [hstep]
      have hd := (List.nodup_append.mp hn).2.2
      have hwid : w.id ∉ g.triMap.map Prod.fst := by
        intro hmem
        exact hd hmem (by simp)
      have hhasf : mapHas g.triMap w.id = false := by
        cases hb : mapHas g.triMap w.id
        · rfl
        · exact absurd (mapHas_true_mem hb) hwid
      apply ih
      · dsimp only
        rw [mapSet_of_not_has tri hhasf, List.map_append, List.append_assoc]
        simpa using hn
      · dsimp only
        rw [hidx, show 3 * (tri + 1) = 3 * tri + 3 by ring, range_add_three]
        simp [Nat.mul_comm]
      · dsimp only
        rw [mapSet_of_not_has tri hhasf]
        simp [hlen]
      · dsimp only
        rw [mapSet_of_not_has tri hhasf, List.map_append, List.range_succ]
        simp only [List.map_cons, List.map_nil]
        exact hperm.append (List.Perm.refl _)
    · have hi' : ctx.inc w = false := by
        revert hi; cases ctx.inc w <;> simp
      have hstep : buildStep ctx (g, tri) w = (g, tri) := by
        unfold buildStep
        rw [if_pos (by simp [hi'])]
      rw [hstep]
      refine ih g tri ?_ hidx hlen hperm
      have hsub : List.Sublist (g.triMap.map Prod.fst ++ ws.map Wall.id)
          (g.triMap.map Prod.fst ++ (w :: ws).map Wall.id) := by
        simp only [List.map_cons]
        exact List.Sublist.append_left (List.sublist_cons_self _ _) _
      exact hn.sublist hsub

theorem inv_constructWallGeometry (ctx : GeomCtx) (walls : List Wall)
    (h : (walls.map Wall.id).Nodup) :
    Inv (constructWallGeometry ctx walls) := by
  unfold constructWallGeometry
  refine inv_build_aux ctx walls emptyGeom 0 ?_ rfl rfl ?_
  · simpa [emptyGeom] using h
  · simp [emptyGeom]

/-- C1: for every sequence of addWall/updateWall/removeWall operations
applied to a source shadow geometry built from walls with distinct ids, the
state after the sequence satisfies Inv: the index buffer is the dense range
0..3N-1 for N the tracked-wall count and the id-to-slot map is a bijection
onto the slots 0..N-1.  Since the sequence of operations is arbitrary, the
invariant holds after each operation of any sequence (instantiate with each
prefix). -/
theorem C1_slot_density (ctx : GeomCtx) (walls : List Wall)
    (ops : List WallOp) (h : (walls.map Wall.id).Nodup) :
    Inv (applyOps ctx (constructWallGeometry ctx walls) ops) :=
  inv_applyOps ctx ops _ (inv_constructWallGeometry ctx walls h)

/-- Witness for C1: a concrete build of one wall followed by an add and a
remove. -/
theorem C1_slot_density_witness :
    Inv (applyOps ctx0 (constructWallGeometry ctx0 [bandWall])
      [WallOp.add bandWall2, WallOp.rem ("w9")]) :=
  C1_slot_density ctx0 [bandWall] [WallOp.add bandWall2, WallOp.rem ("w9")]
    (by decide)

/-- C6: for a tracked and still-included wall, updateWall overwrites only the
attribute entries at the wall's existing slot for the changed category
(corner buffers on a coordinate change, limited buffer when the changes
contain the source's channel); the index buffer and the id-to-slot map are
unchanged, no buffer grows or shrinks, and entries outside the wall's slot
(all other walls' data) are preserved by the take/splice/drop form of the
updated buffers. -/
theorem C6_updateWall_in_place (ctx : GeomCtx) (g : GeomState) (w : Wall)
    (changes : List String) (n : ℕ)
    (hhas : mapHas g.triMap w.id = true) (hinc : ctx.inc w = true)
    (hc1 : g.corner1.length = 9 * n) (hc2 : g.corner2.length = 9 * n)
    (hl : g.limited.length = 3 * n)
    (hs : mapGet g.triMap w.id < n) :
    (updateWall ctx g w changes).triMap = g.triMap
    ∧ (updateWall ctx g w changes).index = g.index
    ∧ (updateWall ctx g w changes).corner1.length = g.corner1.length
    ∧ (updateWall ctx g w changes).corner2.length = g.corner2.length
    ∧ (updateWall ctx g w changes).limited.length = g.limited.length
    ∧ (WALL_COORDINATE_FLAGS.any (fun f => changes.contains f) = false →
        (updateWall ctx g w changes).corner1 = g.corner1
        ∧ (updateWall ctx g w changes).corner2 = g.corner2)
    ∧ (WALL_COORDINATE_FLAGS.any (fun f => changes.contains f) = true →
        (updateWall ctx g w changes).corner1
          = g.corner1.take (mapGet g.triMap w.id * 9) ++ cornerData1 ctx w
            ++ g.corner1.drop (mapGet g.triMap w.id * 9 + 9)
        ∧ (updateWall ctx g w changes).corner2
          = g.corner2.take (mapGet g.triMap w.id * 9) ++ cornerData2 ctx w
            ++ g.corner2.drop (mapGet g.triMap w.id * 9 + 9))
    ∧ (changes.contains ctx.sourceType = false →
        (updateWall ctx g w changes).limited = g.limited)
    ∧ (changes.contains ctx.sourceType = true →
        (updateWall ctx g w changes).limited
          = g.limited.take (mapGet g.triMap w.id * 3)
            ++ [toNumberBoolArray (isLimited ctx.sourceType w),
                toNumberBoolArray (isLimited ctx.sourceType w),
                toNumberBoolArray (isLimited ctx.sourceType w)]
            ++ g.limited.drop (mapGet g.triMap w.id * 3 + 3)) := by
  have e1 : (cornerData1 ctx w).length = 9 := rfl
  have e2 : (cornerData2 ctx w).length = 9 := rfl
  have e3 : ([toNumberBoolArray (isLimited ctx.sourceType w),
      toNumberBoolArray (isLimited ctx.sourceType w),
      toNumberBoolArray (isLimited ctx.sourceType w)] : List JSNum).length
      = 3 := rfl
  have hu : updateWall ctx g w changes
      = if changes.contains ctx.sourceType then
          { updateWallCoordinates ctx g w changes with
            limited := overwriteBufferAt
              (updateWallCoordinates ctx g w changes).limited
              [toNumberBoolArray (isLimited ctx.sourceType w),
               toNumberBoolArray (isLimited ctx.sourceType w),
               toNumberBoolArray (isLimited ctx.sourceType w)]
              (mapGet g.triMap w.id) }
        else updateWallCoordinates ctx g w changes := by
    unfold updateWall
    rw [if_neg (by simp [hhas]), if_neg (by simp [hinc])]
  have hq1 : (updateWallCoordinates ctx g w changes).triMap = g.triMap := by
    unfold updateWallCoordinates
    by_cases hc : WALL_COORDINATE_FLAGS.any (fun f => changes.contains f)
        = true
    · rw [if_pos hc]
    · rw [if_neg hc]
  have hq2 : (updateWallCoordinates ctx g w changes).index = g.index := by
    unfold updateWallCoordinates
    by_cases hc : WALL_COORDINATE_FLAGS.any (fun f => changes.contains f)
        = true
    · rw [if_pos hc]
    · rw [if_neg hc]
  have hq3 : (updateWallCoordinates ctx g w changes).limited = g.limited := by
    unfold updateWallCoordinates
    by_cases hc : WALL_COORDINATE_FLAGS.any (fun f => changes.contains f)
        = true
    · rw [if_pos hc]
    · rw [if_neg hc]
  have hq4F : WALL_COORDINATE_FLAGS.any (fun f => changes.contains f) = false
      → (updateWallCoordinates ctx g w changes).corner1 = g.corner1
        ∧ (updateWallCoordinates ctx g w changes).corner2 = g.corner2 := by
    intro hc
    unfold updateWallCoordinates
    rw [if_neg (by rw [hc]; simp)]
    exact ⟨rfl, rfl⟩
  have hq4T : WALL_COORDINATE_FLAGS.any (fun f => changes.contains f) = true
      → (updateWallCoordinates ctx g w changes).corner1
          = g.corner1.take (mapGet g.triMap w.id * 9) ++ cornerData1 ctx w
            ++ g.corner1.drop (mapGet g.triMap w.id * 9 + 9)
        ∧ (updateWallCoordinates ctx g w changes).corner2
          = g.corner2.take (mapGet g.triMap w.id * 9) ++ cornerData2 ctx w
            ++ g.corner2.drop (mapGet g.triMap w.id * 9 + 9) := by
    intro hc
    unfold updateWallCoordinates
    rw [if_pos hc]
    constructor
    · dsimp only
      rw [overwriteBufferAt_splice g.corner1 (cornerData1 ctx w) _ n
        (by rw [e1]; exact hc1) (by rw [e1]; omega) hs, e1]
    · dsimp only
      rw [overwriteBufferAt_splice g.corner2 (cornerData2 ctx w) _ n
        (by rw [e2]; exact hc2) (by rw [e2]; omega) hs, e2]
  have hlen1 : (updateWallCoordinates ctx g w changes).corner1.length
      = g.corner1.length := by
    by_cases hc : WALL_COORDINATE_FLAGS.any (fun f => changes.contains f)
        = true
    · unfold updateWallCoordinates
      rw [if_pos hc]
      dsimp only
      exact overwriteBufferAt_splice_length g.corner1 (cornerData1 ctx w) _ n
        (by rw [e1]; exact hc1) (by rw [e1]; omega) hs
    · have hcf : WALL_COORDINATE_FLAGS.any (fun f => changes.contains f)
          = false := Bool.eq_false_iff.mpr hc
      rw [(hq4F hcf).1]
  have hlen2 : (updateWallCoordinates ctx g w changes).corner2.length
      = g.corner2.length := by
    by_cases hc : WALL_COORDINATE_FLAGS.any (fun f => changes.contains f)
        = true
    · unfold updateWallCoordinates
      rw [if_pos hc]
      dsimp only
      exact overwriteBufferAt_splice_length g.corner2 (cornerData2 ctx w) _ n
        (by rw [e2]; exact hc2) (by rw [e2]; omega) hs
    · have hcf : WALL_COORDINATE_FLAGS.any (fun f => changes.contains f)
          = false := Bool.eq_false_iff.mpr hc
      rw [(hq4F hcf).2]
  by_cases hsrc : changes.contains ctx.sourceType = true
  · rw [hu, if_pos hsrc]
    refine ⟨hq1, hq2, hlen1, hlen2, ?_, ?_, ?_, ?_, ?_⟩
    · dsimp only
      rw [hq3]
      exact overwriteBufferAt_splice_length g.limited _ _ n
        (by rw [e3]; exact hl) (by rw [e3]; omega) hs
    · intro hcf
      exact hq4F hcf
    · intro hct
      exact hq4T hct
    · intro hf
      rw [hf] at hsrc
      cases hsrc
    · intro _
      dsimp only
      rw [hq3]
      rw [overwriteBufferAt_splice g.limited _ _ n (by rw [e3]; exact hl)
        (by rw [e3]; omega) hs, e3]
  · have hsrc' : changes.contains ctx.sourceType = false := by
      revert hsrc; cases changes.contains ctx.sourceType <;> simp
    rw [hu, if_neg hsrc]
    refine ⟨hq1, hq2, hlen1, hlen2, ?_, ?_, ?_, ?_, ?_⟩
    · rw [hq3]
    · intro hcf
      exact hq4F hcf
    · intro hct
      exact hq4T hct
    · intro _
      exact hq3
    · intro ht
      rw [ht] at hsrc'
      cases hsrc'

/-- Witness for C6 at a concrete one-wall geometry with a coordinate and a
light-sense change. -/
theorem C6_updateWall_in_place_witness :
    (updateWall ctx0 (constructWallGeometry ctx0 [bandWall]) bandWall
        ["c", "light"]).triMap
      = (constructWallGeometry ctx0 [bandWall]).triMap
    ∧ (updateWall ctx0 (constructWallGeometry ctx0 [bandWall]) bandWall
        ["c", "light"]).index
      = (constructWallGeometry ctx0 [bandWall]).index := by
  have h := C6_updateWall_in_place ctx0 (constructWallGeometry ctx0 [bandWall])
    bandWall ["c", "light"] 1 (by decide) (by decide) (by decide) (by decide)
    (by decide) (by decide)
  exact ⟨h.1, h.2.1⟩

end EV
